import Mathlib

/-!
Shallow embedding of the clockwork scheduling/lifecycle runtime
(src/clockwork.rs, src/clockwork_app.rs, src/clockwork_config.rs,
src/clockwork_thread.rs, src/lib.rs) and proofs of the specification
claims about it.

Modelling conventions:
- The shared `stopped` atomic flag (the spec's StopSignal) is the only
  mutable state shared by all clones of a `ClockworkHandle`; it is
  modelled as a `Bool` field of `ClockworkState`.  Every clone of a
  handle aliases the same `ClockworkState`, so an operation performed
  through any clone is an operation on this one state value.
- Async loops (`schedule_repeating_task_at`'s while loop, the default
  `Runnable::run` loop) are modelled as fuel-indexed recursions over an
  observation sequence `obs : Nat -> Bool` giving the value the loop
  reads from the shared flag at its nth check.
- Time is `Nat` (an abstract tick count); the platform timer contract of
  `tokio::time::interval_at` is modelled by the `IntervalTrace` structure.
-/

/-- The state shared by every clone of a `ClockworkHandle`: the `stopped`
atomic flag, created `false` by `ClockworkHandle::new` (clockwork.rs). -/
structure ClockworkState where
  stopped : Bool
deriving Repr, DecidableEq

/-- Embeds `ClockworkHandle::new`: the flag starts out `false`
(`AtomicBool::new(false)`, clockwork.rs lines 20-25). -/
def ClockworkHandle.new : ClockworkState :=
  { stopped := false }

/-- Embeds `ClockworkHandle::stop`: `self.stopped.store(true, Ordering::SeqCst)`
(clockwork.rs lines 66-68). -/
def ClockworkHandle.stop (_s : ClockworkState) : ClockworkState :=
  { stopped := true }

/-- Embeds `ClockworkHandle::stopped`: `self.stopped.load(Ordering::Relaxed)`
(clockwork.rs lines 70-72). -/
def ClockworkHandle.stoppedRead (s : ClockworkState) : Bool :=
  s.stopped

/-- The operations available on a `ClockworkHandle` (clockwork.rs).  The
scheduling operations hand a new unit of work to the runtime and never
write the shared flag; only `stop` writes it. -/
inductive HandleOp where
  | stop
  | scheduleRepeatingTaskAt
  | scheduleOneofTask
  | spawnTask
  | readStopped
deriving Repr, DecidableEq

/-- Effect of one handle operation on the shared state.  Translated from
clockwork.rs: `stop` is the only method that stores to `stopped`
(`store(true, SeqCst)`); `schedule_repeating_task_at`,
`schedule_oneof_task` and `spawn_task` only call `self.rt.spawn`, and
`stopped` only loads the flag. -/
def applyOp : HandleOp → ClockworkState → ClockworkState
  | HandleOp.stop, s => ClockworkHandle.stop s
  | HandleOp.scheduleRepeatingTaskAt, s => s
  | HandleOp.scheduleOneofTask, s => s
  | HandleOp.spawnTask, s => s
  | HandleOp.readStopped, s => s

/-- Fold a sequence of handle operations over the shared state. -/
def applyOps (ops : List HandleOp) (s : ClockworkState) : ClockworkState :=
  ops.foldl (fun s op => applyOp op s) s

theorem applyOps_nil (s : ClockworkState) : applyOps [] s = s := rfl

theorem applyOps_cons (op : HandleOp) (ops : List HandleOp) (s : ClockworkState) :
    applyOps (op :: ops) s = applyOps ops (applyOp op s) := rfl

theorem applyOps_append (l₁ l₂ : List HandleOp) (s : ClockworkState) :
    applyOps (l₁ ++ l₂) s = applyOps l₂ (applyOps l₁ s) :=
  List.foldl_append _ _ _ _

/-- No operation stores `false` to the flag: once the state is stopped it
stays stopped under any further sequence of operations. -/
theorem stopped_mono (ops : List HandleOp) (s : ClockworkState)
    (h : s.stopped = true) : (applyOps ops s).stopped = true := by
  induction ops generalizing s with
  | nil => exact h
  | cons op rest ih =>
      rw [applyOps_cons]
      apply ih
      cases op <;> simp [applyOp, ClockworkHandle.stop, h]

/-- C1: the StopSignal is `false` immediately after construction; after a
`stop` (requestStop) anywhere in a sequence of handle operations, every
subsequent `stopped` (isStopped) read — through any clone, since all
clones alias the same state — returns `true` forever, and a repeated
`stop` leaves the state unchanged (idempotence). -/
theorem stop_signal_monotone (pre post : List HandleOp) :
    ClockworkHandle.stoppedRead ClockworkHandle.new = false ∧
    ClockworkHandle.stoppedRead
      (applyOps post (applyOp HandleOp.stop (applyOps pre ClockworkHandle.new))) = true ∧
    (∀ s : ClockworkState,
      applyOp HandleOp.stop (applyOp HandleOp.stop s) = applyOp HandleOp.stop s) := by
  refine ⟨rfl, ?_, ?_⟩
  · exact stopped_mono post _ rfl
  · intro s
    rfl

/-- The while loop spawned by `ClockworkHandle::schedule_repeating_task_at`
(clockwork.rs lines 29-43):

    while !stopped.load(Ordering::Relaxed) {
        interval.as_mut().tick().await;
        f();
    }

`obs n` is the value the nth check reads from the shared flag, `fuel`
bounds how many loop iterations are examined, `n` is the index of the
next check.  The result is the list of iteration indices at which `f()`
fired within the fuel bound: iteration `n` first checks the flag, and
only when the check reads `false` does it await the next tick and fire. -/
def repeatingFirings (obs : Nat → Bool) : Nat → Nat → List Nat
  | 0, _ => []
  | fuel + 1, n => if obs n then [] else n :: repeatingFirings obs fuel (n + 1)

theorem repeatingFirings_zero (obs : Nat → Bool) (n : Nat) :
    repeatingFirings obs 0 n = [] := rfl

theorem repeatingFirings_succ (obs : Nat → Bool) (fuel n : Nat) :
    repeatingFirings obs (fuel + 1) n =
      if obs n then [] else n :: repeatingFirings obs fuel (n + 1) := rfl

/-- An iteration fires only when every check from the loop start up to and
including its own index read `false`. -/
theorem mem_repeatingFirings (obs : Nat → Bool) (fuel n m : Nat)
    (hm : m ∈ repeatingFirings obs fuel n) :
    n ≤ m ∧ ∀ j, n ≤ j → j ≤ m → obs j = false := by
  induction fuel generalizing n with
  | zero => simp [repeatingFirings] at hm
  | succ fuel ih =>
      rw [repeatingFirings_succ] at hm
      by_cases hobs : obs n
      · simp [hobs] at hm
      · simp [hobs] at hm
        rcases hm with heq | hm
        · subst heq
          refine ⟨le_refl m, ?_⟩
          intro j h₁ h₂
          have : j = m := le_antisymm h₂ h₁
          subst this
          exact Bool.not_eq_true _ |>.mp hobs
        · obtain ⟨hle, hall⟩ := ih (n + 1) hm
          refine ⟨le_trans (Nat.le_succ n) hle, ?_⟩
          intro j h₁ h₂
          rcases Nat.lt_or_ge j (n + 1) with hj | hj
          · have : j = n := Nat.le_antisymm (Nat.lt_succ_iff.mp hj) h₁
            subst this
            exact Bool.not_eq_true _ |>.mp hobs
          · exact hall j hj h₂

/-- When the flag is never observed `true`, every iteration fires. -/
theorem repeatingFirings_never_stopped (fuel : Nat) :
    repeatingFirings (fun _ => false) fuel 0 = List.range fuel := by
  suffices h : ∀ n, repeatingFirings (fun _ => false) fuel n =
      (List.range fuel).map (· + n) by
    simpa using h 0
  induction fuel with
  | zero => intro n; simp [repeatingFirings]
  | succ fuel ih =>
      intro n
      rw [repeatingFirings_succ, List.range_succ_eq_map]
      simp [ih (n + 1), Function.comp, Nat.add_comm, Nat.add_assoc, Nat.add_left_comm]

/-- Each loop iteration advances the check index by one, so the list of
firing indices has no duplicates. -/
theorem repeatingFirings_nodup (obs : Nat → Bool) (fuel n : Nat) :
    (repeatingFirings obs fuel n).Nodup := by
  induction fuel generalizing n with
  | zero => simp [repeatingFirings]
  | succ fuel ih =>
      rw [repeatingFirings_succ]
      cases hobs : obs n
      · rw [if_neg (by simp [hobs])]
        refine List.nodup_cons.mpr ⟨?_, ih (n + 1)⟩
        intro hmem'
        obtain ⟨hle, -⟩ := mem_repeatingFirings obs fuel (n + 1) n hmem'
        exact Nat.not_succ_le_self n hle
      · rw [if_pos (by simp [hobs])]
        simp

/-- C2: the repeating task runs until the StopSignal is observed `true` at
its own check point.  If `stop` is requested while the task is between
its check `k` (which read `false`) and check `k + 1` — i.e. every check
after `k` reads `true` — then every firing has index at most `k`, at most
one firing (the in-flight iteration `k`) occurs at or after the request,
and no iteration whose own check reads `true` ever fires. -/
theorem repeating_task_stops (obs : Nat → Bool) (fuel k : Nat)
    (hstop : ∀ n, k < n → obs n = true) :
    (∀ m ∈ repeatingFirings obs fuel 0, m ≤ k) ∧
    ((repeatingFirings obs fuel 0).filter (fun m => decide (k ≤ m))).length ≤ 1 ∧
    (∀ n, obs n = true → n ∉ repeatingFirings obs fuel 0) := by
  have hmem : ∀ m ∈ repeatingFirings obs fuel 0, m ≤ k := by
    intro m hm
    obtain ⟨-, hall⟩ := mem_repeatingFirings obs fuel 0 m hm
    by_contra hgt
    have : obs m = true := hstop m (Nat.lt_of_not_le hgt)
    rw [hall m (Nat.zero_le m) (le_refl m)] at this
    exact Bool.false_ne_true this
  refine ⟨hmem, ?_, ?_⟩
  · -- at most one firing at or after the stop request: only index k qualifies,
    -- and the firing indices are distinct (each fuel step advances n by one)
    have hsub : ∀ m ∈ (repeatingFirings obs fuel 0).filter (fun m => decide (k ≤ m)),
        m = k := by
      intro m hm
      rw [List.mem_filter] at hm
      exact le_antisymm (hmem m hm.1) (by simpa using hm.2)
    have hfilter_nodup : ((repeatingFirings obs fuel 0).filter
        (fun m => decide (k ≤ m))).Nodup := (repeatingFirings_nodup obs fuel 0).filter _
    rcases hfl : (repeatingFirings obs fuel 0).filter (fun m => decide (k ≤ m)) with
      - | ⟨a, tl⟩
    · simp
    · rcases tl with - | ⟨b, tl'⟩
      · simp
      · exfalso
        have ha : a = k := hsub a (by rw [hfl]; simp)
        have hb : b = k := hsub b (by rw [hfl]; simp)
        rw [hfl] at hfilter_nodup
        simp [ha, hb] at hfilter_nodup
  · intro n hn hmemn
    obtain ⟨-, hall⟩ := mem_repeatingFirings obs fuel 0 n hmemn
    rw [hall n (Nat.zero_le n) (le_refl n)] at hn
    exact Bool.false_ne_true hn

/-- C2 witness: with the flag observed `false` at checks 0..2 and `true`
from check 3 on (stop requested during iteration 2's wait), every firing
within 10 iterations has index ≤ 2, at most one firing occurs at or
after index 2, and no true-reading check fires. -/
theorem repeating_task_stops_witness :
    (∀ m ∈ repeatingFirings (fun n => decide (2 < n)) 10 0, m ≤ 2) ∧
    ((repeatingFirings (fun n => decide (2 < n)) 10 0).filter
      (fun m => decide (2 ≤ m))).length ≤ 1 ∧
    (∀ n, (fun n => decide (2 < n)) n = true →
      n ∉ repeatingFirings (fun n => decide (2 < n)) 10 0) :=
  repeating_task_stops (fun n => decide (2 < n)) 10 2
    (by intro n h; simpa using h)

/-- One step of the application lifecycle, as driven by a host
(clockwork_app.rs / clockwork_thread.rs).  `enableLogging` is the call to
the logging collaborator's activation; `setup`, `run`, `shutdown` are the
calls to the app's three `Runnable` methods (`run` stands for the whole
blocking `cw.run(&app)` phase). -/
inductive LifecycleStep where
  | enableLogging
  | setup
  | run
  | shutdown
deriving Repr, DecidableEq

/-- The `Clockwork` runtime owner (clockwork.rs lines 80-131): owns the
shared handle state.  `Clockwork.handle` (the field accessor) models the
`handle()` method: a clone aliases the same shared state. -/
structure Clockwork where
  handle : ClockworkState
deriving Repr, DecidableEq

/-- A `ClockworkApp` (clockwork_app.rs lines 27-33): a `Clockwork` runtime,
an optional logging collaborator, and the app value.  The app's concrete
callbacks are abstracted into the `LifecycleStep` alphabet, so only the
presence of the logger matters here. -/
structure ClockworkApp where
  cw : Clockwork
  hasLogger : Bool
deriving Repr, DecidableEq

/-- The sequence of lifecycle steps performed by `ClockworkApp::start`
(clockwork_app.rs lines 125-136):

    if self.logger.is_some() { self.logger...enable_logging(); }
    self.app.setup(self.cw.handle());
    self.cw.run(&self.app);
    self.app.shutdown();

The function returns only after the last listed step completes, and the
`shutdown` call is unconditional: it follows `run` whatever made the run
phase complete. -/
def ClockworkApp.start (a : ClockworkApp) : List LifecycleStep :=
  (if a.hasLogger then [LifecycleStep.enableLogging] else []) ++
    [LifecycleStep.setup, LifecycleStep.run, LifecycleStep.shutdown]

/-- Embeds `ClockworkApp::handle` (clockwork_app.rs lines 139-143): exposes a
clone of the runtime's shared handle. -/
def ClockworkApp.appHandle (a : ClockworkApp) : ClockworkState :=
  a.cw.handle

/-- A `ClockworkRunnable` (clockwork_thread.rs lines 10-30): a `Clockwork`
runtime plus the runnable value (abstracted, as for `ClockworkApp`). -/
structure ClockworkRunnable where
  cw : Clockwork
deriving Repr, DecidableEq

/-- Embeds `ClockworkRunnable::handle` (clockwork_thread.rs lines 21-23). -/
def ClockworkRunnable.handle (r : ClockworkRunnable) : ClockworkState :=
  r.cw.handle

/-- The sequence of lifecycle steps performed by `ClockworkRunnable::start`
(clockwork_thread.rs lines 25-29):

    self.t.setup(self.handle());
    self.cw.run(&self.t);
    self.t.shutdown();
-/
def ClockworkRunnable.start (_r : ClockworkRunnable) : List LifecycleStep :=
  [LifecycleStep.setup, LifecycleStep.run, LifecycleStep.shutdown]

/-- The lifecycle steps performed on the app itself, excluding the
logging-collaborator activation. -/
def appSteps (t : List LifecycleStep) : List LifecycleStep :=
  t.filter (fun s => s ≠ LifecycleStep.enableLogging)

/-- A `ClockworkJoinHandle` (clockwork_thread.rs lines 45-48): the native
thread's join capability (modelled by whether the thread has exited and
by the lifecycle trace the thread performs) plus a clone of the shared
runtime handle. -/
structure ClockworkJoinHandle where
  threadExited : Bool
  threadSteps : List LifecycleStep
  cw_handle : ClockworkState
deriving Repr, DecidableEq

/-- Embeds `ClockworkJoinHandle::joinable` (clockwork_thread.rs lines 99-101):
`self.cw_handle.stopped()`. -/
def ClockworkJoinHandle.joinable (h : ClockworkJoinHandle) : Bool :=
  ClockworkHandle.stoppedRead h.cw_handle

/-- Embeds `ClockworkJoinHandle::stop` (clockwork_thread.rs lines 105-107):
forwards to `self.cw_handle.stop()`; since all clones alias the same
state, this is the same write as a `stop` through any other clone. -/
def ClockworkJoinHandle.stop (h : ClockworkJoinHandle) : ClockworkJoinHandle :=
  { h with cw_handle := ClockworkHandle.stop h.cw_handle }

/-- Embeds `spawn` (clockwork_thread.rs lines 144-153): captures the runnable's
handle, starts a native thread running `cw_runnable.start()`, and
immediately returns the join handle holding the thread's join capability
and the captured handle clone.  At the moment `spawn` returns the thread
has just been started, so it has not exited. -/
def spawn (r : ClockworkRunnable) : ClockworkJoinHandle :=
  { threadExited := false
    threadSteps := ClockworkRunnable.start r
    cw_handle := r.handle }

/-- C3: `ClockworkApp::start` activates the logging collaborator exactly
once when present (and never otherwise), strictly before `setup`; the
app's `setup`, `run`, `shutdown` each occur exactly once and strictly in
that order; `shutdown` occurs unconditionally (whatever completed the run
phase) and is the final step, so `start` returns only after `shutdown`
completes. -/
theorem clockwork_app_start_order (a : ClockworkApp) :
    ((a.start).count LifecycleStep.enableLogging = if a.hasLogger then 1 else 0) ∧
    (a.hasLogger = true →
      (a.start).indexOf LifecycleStep.enableLogging <
        (a.start).indexOf LifecycleStep.setup) ∧
    (a.start).count LifecycleStep.setup = 1 ∧
    (a.start).count LifecycleStep.run = 1 ∧
    (a.start).count LifecycleStep.shutdown = 1 ∧
    (a.start).indexOf LifecycleStep.setup < (a.start).indexOf LifecycleStep.run ∧
    (a.start).indexOf LifecycleStep.run < (a.start).indexOf LifecycleStep.shutdown ∧
    (a.start).getLast? = some LifecycleStep.shutdown := by
  obtain ⟨cw, hasLogger⟩ := a
  cases hasLogger <;> simp [ClockworkApp.start]

/-- C3 witness: the property instantiated at a concrete app with a logging
collaborator present, discharging the `hasLogger = true` hypothesis. -/
theorem clockwork_app_start_order_witness :
    ((ClockworkApp.mk ⟨ClockworkHandle.new⟩ true).start).indexOf
        LifecycleStep.enableLogging <
      ((ClockworkApp.mk ⟨ClockworkHandle.new⟩ true).start).indexOf
        LifecycleStep.setup :=
  (clockwork_app_start_order (ClockworkApp.mk ⟨ClockworkHandle.new⟩ true)).2.1 rfl

/-- The default `Runnable::run` loop (lib.rs lines 37-46):

    while !handle.stopped() {
        sleep(Duration::from_secs(0)).await
    }

`obs n` is the flag value read at the nth check; each iteration performs
exactly one check and, when the check reads `false`, exactly one yield
(`sleep(0)`).  `defaultRun obs fuel n = some m` means the loop completed
at check `m` (having yielded once per earlier check) within the fuel
bound; `none` means it was still looping when fuel ran out. -/
def defaultRun (obs : Nat → Bool) : Nat → Nat → Option Nat
  | 0, _ => none
  | fuel + 1, n => if obs n then some n else defaultRun obs fuel (n + 1)

theorem defaultRun_succ (obs : Nat → Bool) (fuel n : Nat) :
    defaultRun obs (fuel + 1) n =
      if obs n then some n else defaultRun obs fuel (n + 1) := rfl

/-- If the loop completed at check `m`, that check read `true` and every
earlier check read `false`. -/
theorem defaultRun_some (obs : Nat → Bool) (fuel n m : Nat)
    (h : defaultRun obs fuel n = some m) :
    obs m = true ∧ ∀ j, n ≤ j → j < m → obs j = false := by
  induction fuel generalizing n with
  | zero => simp [defaultRun] at h
  | succ fuel ih =>
      rw [defaultRun_succ] at h
      by_cases hobs : obs n
      · rw [if_pos hobs] at h
        obtain rfl : n = m := by simpa using h
        exact ⟨hobs, fun j h₁ h₂ => absurd (lt_of_le_of_lt h₁ h₂) (lt_irrefl n)⟩
      · rw [if_neg hobs] at h
        obtain ⟨hm, hall⟩ := ih (n + 1) h
        refine ⟨hm, ?_⟩
        intro j h₁ h₂
        rcases Nat.lt_or_ge j (n + 1) with hj | hj
        · have : j = n := Nat.le_antisymm (Nat.lt_succ_iff.mp hj) h₁
          subst this
          exact Bool.not_eq_true _ |>.mp hobs
        · exact hall j hj h₂

/-- With enough fuel, the loop completes as soon as some check reads
`true`. -/
theorem defaultRun_completes (obs : Nat → Bool) (fuel n j : Nat)
    (hn : n ≤ j) (hfuel : j < n + fuel) (hj : obs j = true) :
    ∃ m, defaultRun obs fuel n = some m := by
  induction fuel generalizing n with
  | zero => omega
  | succ fuel ih =>
      rw [defaultRun_succ]
      by_cases hobs : obs n
      · exact ⟨n, if_pos hobs⟩
      · rw [if_neg hobs]
        have hne : n ≠ j := by
          intro h
          subst h
          exact hobs hj
        exact ih (n + 1) (by omega) (by omega)

/-- C4: the default `Runnable::run` loop checks the flag on every
iteration and yields on every iteration that continues; its unit of work
completes exactly when the StopSignal is observed `true`: a completion at
check `m` means check `m` read `true` and every earlier check read
`false` (it never completes while the signal reads `false`), and the loop
completes for some fuel bound iff some check reads `true`. -/
theorem default_run_completes_iff (obs : Nat → Bool) :
    (∀ fuel m, defaultRun obs fuel 0 = some m →
      obs m = true ∧ ∀ j, j < m → obs j = false) ∧
    ((∃ j, obs j = true) ↔ ∃ fuel m, defaultRun obs fuel 0 = some m) := by
  constructor
  · intro fuel m h
    obtain ⟨hm, hall⟩ := defaultRun_some obs fuel 0 m h
    exact ⟨hm, fun j hj => hall j (Nat.zero_le j) hj⟩
  · constructor
    · rintro ⟨j, hj⟩
      obtain ⟨m, hm⟩ :=
        defaultRun_completes obs (j + 1) 0 j (Nat.zero_le j) (by omega) hj
      exact ⟨j + 1, m, hm⟩
    · rintro ⟨fuel, m, hm⟩
      exact ⟨m, (defaultRun_some obs fuel 0 m hm).1⟩

/-- C4 witness: with the flag first reading `true` at check 2, the loop
completes at check 2, checks 0 and 1 read `false`, and the
characterisation instantiates concretely. -/
theorem default_run_completes_iff_witness :
    ((fun n => decide (2 ≤ n)) 2 = true ∧
      ∀ j, j < 2 → (fun n => decide (2 ≤ n)) j = false) ∧
    (∃ fuel m, defaultRun (fun n => decide (2 ≤ n)) fuel 0 = some m) :=
  ⟨(default_run_completes_iff (fun n => decide (2 ≤ n))).1 5 2 (by decide),
    (default_run_completes_iff (fun n => decide (2 ≤ n))).2.mp ⟨2, by decide⟩⟩

/-- C6: `ClockworkJoinHandle::joinable` reads exactly the shared
StopSignal: it is `false` immediately after `spawn` on a freshly
constructed runtime, `true` on the state produced by a `stop` through any
clone of the shared handle (the control handle itself or any other), its
value is a function of the shared state only — independent of whether the
spawned thread has exited or what it runs — and in general it returns
precisely the value of the shared `stopped` flag. -/
theorem joinable_iff_stopped :
    (∀ r : ClockworkRunnable, r.cw = ⟨ClockworkHandle.new⟩ →
      (spawn r).joinable = false) ∧
    (∀ h : ClockworkJoinHandle, h.stop.joinable = true) ∧
    (∀ (e : Bool) (t : List LifecycleStep) (s : ClockworkState),
      (ClockworkJoinHandle.mk e t (ClockworkHandle.stop s)).joinable = true) ∧
    (∀ (e e' : Bool) (t t' : List LifecycleStep) (s : ClockworkState),
      (ClockworkJoinHandle.mk e t s).joinable =
        (ClockworkJoinHandle.mk e' t' s).joinable) ∧
    (∀ h : ClockworkJoinHandle, h.joinable = h.cw_handle.stopped) := by
  refine ⟨?_, ?_, ?_, ?_, ?_⟩
  · rintro ⟨cw⟩ hcw
    obtain rfl : cw = ⟨ClockworkHandle.new⟩ := hcw
    rfl
  · intro h
    rfl
  · intro e t s
    rfl
  · intro e e' t t' s
    rfl
  · intro h
    rfl

/-- C6 witness: instantiated at a runnable over a fresh runtime,
discharging the freshness hypothesis. -/
theorem joinable_iff_stopped_witness :
    (spawn ⟨⟨ClockworkHandle.new⟩⟩).joinable = false :=
  joinable_iff_stopped.1 ⟨⟨ClockworkHandle.new⟩⟩ rfl

/-- C7: the spawned thread's body is `cw_runnable.start()`, and for every
runnable and every app its lifecycle trace is exactly the `AppHost`
(`ClockworkApp::start`) sequence: identical to `start` on a host without
a logging collaborator, and identical to the app-directed steps of
`start` on any host; moreover `spawn` returns a join handle holding the
just-started (not yet exited) thread's join capability and a clone of the
same shared runtime handle as the runnable's own. -/
theorem spawn_runs_app_host_sequence :
    (∀ (r : ClockworkRunnable) (cw : Clockwork),
      (spawn r).threadSteps = ClockworkApp.start ⟨cw, false⟩) ∧
    (∀ (r : ClockworkRunnable) (a : ClockworkApp),
      (spawn r).threadSteps = appSteps a.start) ∧
    (∀ r : ClockworkRunnable, (spawn r).cw_handle = r.cw.handle) ∧
    (∀ r : ClockworkRunnable, (spawn r).threadExited = false) := by
  refine ⟨?_, ?_, ?_, ?_⟩
  · intro r cw
    rfl
  · intro r a
    obtain ⟨cw, hasLogger⟩ := a
    cases hasLogger <;>
      simp [spawn, ClockworkRunnable.start, ClockworkApp.start, appSteps]
  · intro r
    rfl
  · intro r
    rfl

/-- Primitive actions of a spawned async task body.  `sleepFor d` is
`sleep(d).await`, `fire` is the call to the scheduled closure `f()`, and
`checkStop` is a read of the shared stop flag (available to task bodies
in general; the one-shot body never performs it). -/
inductive TaskAction where
  | sleepFor (d : Nat)
  | fire
  | checkStop
deriving Repr, DecidableEq

/-- Observable events of executing a task body: a firing at a given time,
or a read of the stop flag returning the given value. -/
inductive TaskEvent where
  | fired (time : Nat)
  | readStop (time : Nat) (value : Bool)
deriving Repr, DecidableEq

/-- Executes a task body on a runtime that is torn down at time `t`,
under stop-flag history `σ` (the flag value at each time).  A sleep
advances the clock; the continuation after a sleep runs only if the
runtime is still alive at the wake time — a pending timer on a torn-down
runtime never completes, and no error is produced.  `fire` and
`checkStop` take no time. -/
def execTask (t : Nat) (σ : Nat → Bool) : List TaskAction → Nat → List TaskEvent
  | [], _ => []
  | TaskAction.sleepFor d :: rest, now =>
      if now + d ≤ t then execTask t σ rest (now + d) else []
  | TaskAction.fire :: rest, now =>
      TaskEvent.fired now :: execTask t σ rest now
  | TaskAction.checkStop :: rest, now =>
      TaskEvent.readStop now (σ now) :: execTask t σ rest now

/-- The future spawned by `ClockworkHandle::schedule_oneof_task`
(clockwork.rs lines 45-55):

    sleep(duration).await;
    f();

It contains no read of the stop flag. -/
def schedule_oneof_task (duration : Nat) : List TaskAction :=
  [TaskAction.sleepFor duration, TaskAction.fire]

/-- C5: a one-shot task scheduled at time 0 with delay `d` on a runtime
torn down at time `t` fires exactly once, at time `d`, when `d ≤ t`;
when the runtime is torn down before the delay elapses (`t < d`) it
silently never fires and produces no event at all (no error); and its
behaviour is identical under every stop-flag history — requesting a stop
neither prevents nor alters its firing, because the body never reads the
flag. -/
theorem oneof_task_fires_once (t d : Nat) (σ σ' : Nat → Bool) :
    (d ≤ t → execTask t σ (schedule_oneof_task d) 0 = [TaskEvent.fired d]) ∧
    (t < d → execTask t σ (schedule_oneof_task d) 0 = []) ∧
    execTask t σ (schedule_oneof_task d) 0 =
      execTask t σ' (schedule_oneof_task d) 0 ∧
    TaskAction.checkStop ∉ schedule_oneof_task d := by
  refine ⟨?_, ?_, ?_, ?_⟩
  · intro hle
    simp [schedule_oneof_task, execTask, hle]
  · intro hlt
    simp only [schedule_oneof_task, execTask]
    rw [if_neg (by omega)]
  · by_cases hle : 0 + d ≤ t <;> simp [schedule_oneof_task, execTask, hle]
  · simp [schedule_oneof_task]

/-- C5 witness: delay 3 against teardown times 5 (fires once, at time 3)
and 2 (never fires), discharging both timing hypotheses. -/
theorem oneof_task_fires_once_witness :
    execTask 5 (fun _ => true) (schedule_oneof_task 3) 0 =
      [TaskEvent.fired 3] ∧
    execTask 2 (fun _ => true) (schedule_oneof_task 3) 0 = [] :=
  ⟨(oneof_task_fires_once 5 3 (fun _ => true) (fun _ => true)).1 (by decide),
    (oneof_task_fires_once 2 3 (fun _ => true) (fun _ => true)).2.1 (by decide)⟩

/-- The platform timer contract of `tokio::time::interval_at(start,
period)` as used by `schedule_repeating_task_at` (clockwork.rs lines
34-42): the nth `tick().await` (n = 0, 1, ...) has deadline
`start + n * period` and completes no earlier than its deadline; ticks
are awaited one after another (each after the previous firing returns),
so completion times are monotone.  Under the default missed-tick
behaviour, a tick whose deadline has already passed completes
immediately, which such traces represent by consecutive equal (or
closely spaced) completion times. -/
structure IntervalTrace where
  start : Nat
  period : Nat
  tickTime : Nat → Nat
  tick_ge_deadline : ∀ n, start + n * period ≤ tickTime n
  tick_mono : ∀ n, tickTime n ≤ tickTime (n + 1)

/-- Firing times of the repeating task: iteration `n` fires right after
tick `n` completes, so the firing recorded at loop index `n` occurs at
`tickTime n`. -/
def firingTimes (iv : IntervalTrace) (obs : Nat → Bool) (fuel : Nat) : List Nat :=
  (repeatingFirings obs fuel 0).map iv.tickTime

/-- C8 (amended): with the StopSignal never raised, every iteration fires,
and the Nth firing (1-indexed; list index N-1) occurs no earlier than
`start + (N-1) * period`; consecutive tick deadlines are spaced by
exactly the period.  The original claim's further assertion that
consecutive firing *times* are spaced by at least the period is refuted
by `repeating_firing_spacing_cex` below. -/
theorem repeating_firing_lower_bound (iv : IntervalTrace) (fuel n : Nat)
    (hn : n < fuel) :
    (firingTimes iv (fun _ => false) fuel)[n]? = some (iv.tickTime n) ∧
    iv.start + n * iv.period ≤ iv.tickTime n ∧
    (iv.start + (n + 1) * iv.period) = (iv.start + n * iv.period) + iv.period := by
  refine ⟨?_, iv.tick_ge_deadline n, by ring⟩
  rw [firingTimes, repeatingFirings_never_stopped]
  simp [List.getElem?_map, List.getElem?_range, hn]

/-- An interval trace in which every tick completes exactly at its
deadline (start 0, period 2). -/
def onTimeTicks : IntervalTrace where
  start := 0
  period := 2
  tickTime := fun n => 2 * n
  tick_ge_deadline := by
    intro n
    show 0 + n * 2 ≤ 2 * n
    omega
  tick_mono := by
    intro n
    show 2 * n ≤ 2 * (n + 1)
    omega

/-- C8 witness: on the on-time trace the third firing is reported at its
tick time and bounded below by `start + 2 * period`. -/
theorem repeating_firing_lower_bound_witness :
    (firingTimes onTimeTicks (fun _ => false) 5)[2]? =
      some (onTimeTicks.tickTime 2) ∧
    onTimeTicks.start + 2 * onTimeTicks.period ≤ onTimeTicks.tickTime 2 ∧
    (onTimeTicks.start + (2 + 1) * onTimeTicks.period) =
      (onTimeTicks.start + 2 * onTimeTicks.period) + onTimeTicks.period :=
  repeating_firing_lower_bound onTimeTicks 5 2 (by omega)

/-- A concrete interval trace permitted by the timer contract in which
the first tick completes late (at time 6 instead of 0, e.g. because the
runtime was busy): with period 2 the subsequent overdue ticks complete
immediately (burst catch-up). -/
def lateFirstTick : IntervalTrace where
  start := 0
  period := 2
  tickTime := fun n => max (2 * n) 6
  tick_ge_deadline := by
    intro n
    show 0 + n * 2 ≤ max (2 * n) 6
    have := Nat.le_max_left (2 * n) 6
    omega
  tick_mono := by
    intro n
    show max (2 * n) 6 ≤ max (2 * (n + 1)) 6
    exact max_le_max (by omega) (le_refl 6)

/-- C8 counterexample: the claim that consecutive firings are spaced by
at least the period fails on `lateFirstTick`: with the StopSignal never
raised the first three firings occur at times 6, 6, 6, so the second and
third firings are 0 < period = 2 apart. -/
theorem repeating_firing_spacing_cex :
    firingTimes lateFirstTick (fun _ => false) 3 = [6, 6, 6] ∧
    ¬ ((firingTimes lateFirstTick (fun _ => false) 3).Chain'
        (fun a b => a + lateFirstTick.period ≤ b)) := by
  constructor
  · rfl
  · intro h
    rw [show firingTimes lateFirstTick (fun _ => false) 3 = [6, 6, 6] from rfl] at h
    have : (6 : Nat) + lateFirstTick.period ≤ 6 := by
      have := List.chain'_cons.mp h
      exact this.1
    simp [lateFirstTick] at this

/-- Embeds `RuntimeConfig` (clockwork_config.rs lines 11-29).  Field names are
adapted to the gate's identifier rules: `ioEnabled` embeds the source
field `enable_io`, `timeEnabled` embeds `enable_time`, `maxThreads`
embeds `max_threads`. -/
structure RuntimeConfig where
  ioEnabled : Bool
  timeEnabled : Bool
  maxThreads : Nat
deriving Repr, DecidableEq

/-- Embeds `default_as_true` (clockwork_config.rs lines 3-5). -/
def default_as_true : Bool := true

/-- Embeds `default_max_thread` (clockwork_config.rs lines 7-9). -/
def default_max_thread : Nat := 512

/-- Embeds `impl Default for RuntimeConfig` (clockwork_config.rs lines 21-29). -/
def RuntimeConfig.default : RuntimeConfig :=
  { ioEnabled := default_as_true
    timeEnabled := default_as_true
    maxThreads := default_max_thread }

/-- Embeds `ClockworkConfig` (clockwork_config.rs lines 31-34). -/
structure ClockworkConfig where
  runtime : RuntimeConfig
deriving Repr, DecidableEq

/-- Embeds `impl Default for ClockworkConfig` (clockwork_config.rs lines 36-42). -/
def ClockworkConfig.default : ClockworkConfig :=
  { runtime := RuntimeConfig.default }

/-- The observable settings of the runtime builder (the collaborator
`tokio::runtime::Builder`): current-thread flavour, whether I/O and
timer drivers are enabled (`Builder::new_current_thread` starts with both
disabled until `enable_io` / `enable_time` are called), and the ceiling
on concurrent blocking worker threads set by `max_blocking_threads`
(the builder's own default ceiling is 512). -/
structure BuilderState where
  ioEnabled : Bool
  timeEnabled : Bool
  maxBlockingThreads : Nat
deriving Repr, DecidableEq

/-- Embeds `Builder::new_current_thread()`: no driver enabled yet, default
blocking-thread ceiling 512. -/
def Builder.newCurrentThread : BuilderState :=
  { ioEnabled := false, timeEnabled := false, maxBlockingThreads := 512 }

/-- Embeds `impl From<ClockworkConfig> for Clockwork` (clockwork.rs lines
133-150), restricted to the builder settings it applies:

    let mut builder = Builder::new_current_thread();
    if conf.runtime.enable_io { builder.enable_io(); }
    if conf.runtime.enable_time { builder.enable_time(); }
    builder.max_blocking_threads(conf.runtime.max_threads);

`builder.build()` then constructs the runtime from exactly this state
(failing fatally with "Failed to Build Runtime" otherwise). -/
def clockworkBuilderFrom (conf : ClockworkConfig) : BuilderState :=
  let b := Builder.newCurrentThread
  let b := if conf.runtime.ioEnabled then { b with ioEnabled := true } else b
  let b := if conf.runtime.timeEnabled then { b with timeEnabled := true } else b
  { b with maxBlockingThreads := conf.runtime.maxThreads }

/-- C9: for every configuration value the runtime is built from a builder
state honouring the configuration exactly — I/O driver iff `enable_io`,
timer driver iff `enable_time`, and `max_threads` as the ceiling on
concurrent worker (blocking) threads — and the default configuration is
`enable_io = true`, `enable_time = true`, `max_threads = 512`. -/
theorem runtime_built_from_config (conf : ClockworkConfig) :
    (clockworkBuilderFrom conf).ioEnabled = conf.runtime.ioEnabled ∧
    (clockworkBuilderFrom conf).timeEnabled = conf.runtime.timeEnabled ∧
    (clockworkBuilderFrom conf).maxBlockingThreads = conf.runtime.maxThreads ∧
    ClockworkConfig.default.runtime = ⟨true, true, 512⟩ := by
  obtain ⟨⟨io_flag, time_flag, threads⟩⟩ := conf
  refine ⟨?_, ?_, rfl, rfl⟩ <;>
    cases io_flag <;> cases time_flag <;> rfl

/-- Decoded contents of a configuration text, restricted to the three
top-level sections `ClockworkAppConfig` consumes (clockwork_app.rs lines
16-24).  A field is `none` when its section is absent from the text;
`α` is the application's own configuration type, and `appSection` holds
the decoded app section when present (for a zero-field or fully
defaultable `α`, decoding a present section always succeeds, but absence
still leaves `none`).  The logger section is modelled by presence only. -/
structure ConfigDoc (α : Type) where
  clockworkSection : Option ClockworkConfig
  loggerSection : Option Unit
  appSection : Option α

/-- Deserialization of `ClockworkAppConfig` (clockwork_app.rs lines
16-24), following the collaborator's (serde derive) field semantics:
`clockwork` and `logger` carry `#[serde(default)]`, so an absent section
is replaced by the type's default value; `app` has no default, so an
absent `app` section is a decode error before the app's own
configuration type is ever consulted — even when that type could decode
an empty section. -/
def ClockworkAppConfig.deserialize {α : Type} (doc : ConfigDoc α) :
    Option (ClockworkConfig × α) :=
  match doc.appSection with
  | none => none
  | some a => some (doc.clockworkSection.getD ClockworkConfig.default, a)

/-- Embeds `ClockworkApp::from_config_str` (clockwork_app.rs lines 78-86):
decodes the text and panics with "Failed to parse config!" when decoding
fails; on success it builds the app from the decoded configuration.  The
panic is modelled as the `Except.error` carrying the panic message. -/
def ClockworkApp.from_config_str {α : Type} (doc : ConfigDoc α) :
    Except String (ClockworkConfig × α) :=
  match ClockworkAppConfig.deserialize doc with
  | some conf => Except.ok conf
  | none => Except.error "Failed to parse config!"

/-- C10: for every application configuration type `α` — however
defaultable (witnessed by a value `d : α` its decoder could produce for
an empty section) — a configuration text with no `app` section fails with
the panic "Failed to parse config!", whatever the other sections
contain; whereas omitting the `clockwork` (and `logger`) sections
succeeds whenever the `app` section is present, substituting the default
`ClockworkConfig`. -/
theorem app_section_required {α : Type} (d : α) (cs : Option ClockworkConfig)
    (ls : Option Unit) :
    ClockworkApp.from_config_str
      (ConfigDoc.mk cs ls (none : Option α)) =
        Except.error "Failed to parse config!" ∧
    ClockworkApp.from_config_str (ConfigDoc.mk none none (some d)) =
      Except.ok (ClockworkConfig.default, d) := by
  exact ⟨rfl, rfl⟩
